import Mathlib

/-
  Verification development for the cognicap repository.

  The TypeScript core is shallowly embedded: JS numbers that only ever hold
  exact decimal/integer values are modelled as rationals, JS Maps keyed by
  agent id as functions with an Option/default, bounded arrays as lists, and
  wall-clock timestamps as opaque rational inputs.  Division sites that the
  source leaves unguarded (0/0 = NaN in JS) are modelled with Option, none
  standing for NaN.
-/

set_option maxHeartbeats 1000000
set_option maxRecDepth 4000

namespace SemanticDrift

/-- ASCII lowercasing of one character, as `toLowerCase` acts on the
    character range these samples use. -/
def lowerChar (c : Char) : Char :=
  if 'A' ≤ c ∧ c ≤ 'Z' then Char.ofNat (c.toNat + 32) else c

def isWsChar (c : Char) : Bool :=
  c = ' ' ∨ c = '\t' ∨ c = '\n' ∨ c = '\r'

/-- Structural splitter: `cur` holds the reversed current word. -/
def splitAux : List Char → List Char → List String
  | [], cur => if cur = [] then [] else [String.mk cur.reverse]
  | c :: rest, cur =>
      if isWsChar c then
        if cur = [] then splitAux rest []
        else String.mk cur.reverse :: splitAux rest []
      else splitAux rest (c :: cur)

/-- Whitespace tokenizer modelling `sample.toLowerCase().split(/\s+/)`.
    Empty tokens (produced by JS for leading whitespace) are discarded here;
    they never classify as technical terms, so term extraction agrees. -/
def splitWords (sample : String) : List String :=
  splitAux (sample.data.map lowerChar) []

/-- The fixed technical-term pattern set of `isTechnicalTerm`.  Every source
    pattern is anchored on both ends, so each one recognizes exactly the
    listed alternatives; the `/i` flag is redundant because callers pass
    already-lowercased words. -/
def technicalTermList : List String :=
  ["api", "sdk", "cli", "gui", "ui", "ux",
   "async", "sync", "await", "promise",
   "function", "method", "class", "interface",
   "database", "query", "index", "schema",
   "agent", "protocol", "orchestrat",
   "semantic", "cognitive", "drift", "overload"]

def isTechnicalTerm (word : String) : Bool :=
  technicalTermList.contains word

/-- `terms.set(word, (terms.get(word) || 0) + 1)` on an association-list
    rendering of the JS Map (insertion order preserved, keys unique). -/
def bumpTerm (m : List (String × Nat)) (w : String) : List (String × Nat) :=
  match m with
  | [] => [(w, 1)]
  | (t, n) :: rest => if t = w then (t, n + 1) :: rest else (t, n) :: bumpTerm rest w

/-- `extractTerminology`: count every technical word of every sample. -/
def extractTerminology (samples : List String) : List (String × Nat) :=
  samples.foldl (fun m s => ((splitWords s).filter isTechnicalTerm).foldl bumpTerm m) []

/-- `map.get(term) || 0`. -/
def freq (m : List (String × Nat)) (t : String) : Nat :=
  match m.find? (fun p => p.1 = t) with
  | some p => p.2
  | none => 0

/-- `calculateDrift`: iterate the union of the two key sets, accumulate the
    min/max frequency sums, and return `1 - similarity/total` (0 when total
    is 0).  Frequencies are integers, so the accumulators live in Nat and are
    cast to rationals only for the final division, exactly as JS arithmetic
    would produce. -/
def calculateDrift (baseline current : List (String × Nat)) : ℚ :=
  let allTerms := (baseline.map Prod.fst ++ current.map Prod.fst).dedup
  let sums := allTerms.foldl
    (fun (acc : Nat × Nat) t =>
      let baselineFreq := freq baseline t
      let currentFreq := freq current t
      if 0 < baselineFreq ∨ 0 < currentFreq then
        (acc.1 + min baselineFreq currentFreq, acc.2 + max baselineFreq currentFreq)
      else acc)
    (0, 0)
  if 0 < sums.2 then 1 - ((sums.1 : ℚ) / (sums.2 : ℚ)) else 0

/-- The stored per-agent baseline record; the `patterns` and `timestamp`
    fields of the source object are never read by any modelled operation and
    are omitted. -/
structure BaselineEntry where
  terminology : List (String × Nat)
  sampleCount : Nat
deriving DecidableEq

/-- State of `SemanticDriftMeasurement`: the per-agent baseline map and the
    append-only measurement log (timestamps abstracted away). -/
structure DriftState where
  baseline : String → Option BaselineEntry
  measurements : List (String × ℚ)

def initState : DriftState := ⟨fun _ => none, []⟩

/-- `establishBaseline`: extract and store, discarding any prior baseline.
    The source performs no input validation whatsoever. -/
def establishBaseline (st : DriftState) (agentId : String) (samples : List String) :
    DriftState :=
  { st with
    baseline := fun a =>
      if a = agentId then some ⟨extractTerminology samples, samples.length⟩
      else st.baseline a }

/-- `measureDrift`: 0 with no baseline, otherwise `calculateDrift` against the
    freshly extracted sample profile; the observation is appended to the log. -/
def measureDrift (st : DriftState) (agentId : String) (newSample : String) :
    ℚ × DriftState :=
  match st.baseline agentId with
  | none => (0, st)
  | some b =>
      let currentTerms := extractTerminology [newSample]
      let drift := calculateDrift b.terminology currentTerms
      (drift, { st with measurements := st.measurements ++ [(agentId, drift)] })

/-- The drift formula in the specification wording: the union of the
    recognized technical terms of baseline and sample, drift
    1 - (sum of min frequencies) / (sum of max frequencies), and 0 by
    convention when the term union is empty. -/
def termUnion (b c : List (String × Nat)) : List String :=
  (b.map Prod.fst ++ c.map Prod.fst).dedup

def driftSpec (b c : List (String × Nat)) : ℚ :=
  let u := termUnion b c
  if u = [] then 0
  else
    1 - ((((u.map (fun t => min (freq b t) (freq c t))).sum : Nat) : ℚ) /
      (((u.map (fun t => max (freq b t) (freq c t))).sum : Nat) : ℚ))

/-- `establishBaseline` as claim C7 words it: an empty sample list is rejected
    with InvalidArgument, anything else succeeds. -/
def establishBaselineClaimed (st : DriftState) (agentId : String)
    (samples : List String) : Except String DriftState :=
  if samples = [] then Except.error "InvalidArgument"
  else Except.ok (establishBaseline st agentId samples)

end SemanticDrift

namespace Overload

/-- `CognitiveMetrics`: one metric record.  All numeric fields are exact
    rationals; `timestamp` is an opaque input. -/
structure CognitiveMetrics where
  agentId : String
  timestamp : ℚ
  contextWindowUsage : ℚ
  processingLatency : ℚ
  errorRate : ℚ
  semanticConsistency : ℚ
  cognitiveLoadIndex : ℚ
deriving DecidableEq

structure ContextWindowThresholds where
  safe : ℚ
  warning : ℚ
  critical : ℚ

structure LatencyThresholds where
  baselineMs : ℚ
  warningMultiplier : ℚ
  criticalMultiplier : ℚ

structure ErrorRateThresholds where
  acceptable : ℚ
  warning : ℚ
  critical : ℚ

structure SemanticDriftThresholds where
  acceptable : ℚ
  warning : ℚ
  critical : ℚ

structure OverloadThresholds where
  contextWindow : ContextWindowThresholds
  latency : LatencyThresholds
  errorRate : ErrorRateThresholds
  semanticDrift : SemanticDriftThresholds

/-- The fixed constant threshold table of `CognitiveOverloadDetector`. -/
def thresholds : OverloadThresholds :=
  ⟨⟨0.60, 0.75, 0.90⟩, ⟨1000, 1.5, 2⟩, ⟨0.02, 0.05, 0.10⟩, ⟨0.15, 0.25, 0.40⟩⟩

/-- The derived per-agent baseline `{latency, contextUsage, consistency}`. -/
structure DerivedBaseline where
  latency : ℚ
  contextUsage : ℚ
  consistency : ℚ
deriving DecidableEq

/-- Detector state: the per-agent metric history map and baseline map. -/
structure DetectorState where
  metrics : String → List CognitiveMetrics
  baselines : String → Option DerivedBaseline

def initState : DetectorState := ⟨fun _ => [], fun _ => none⟩

/-- `list.reduce((a, b) => a + b, 0) / list.length` on a list known by the
    caller to be non-empty (every use below is guarded, as in the source). -/
def avgQ (l : List ℚ) : ℚ := l.sum / (l.length : ℚ)

/-- `array.slice(-count)`: the last `count` elements. -/
def sliceLast {α : Type} (l : List α) (count : Nat) : List α :=
  l.drop (l.length - count)

def getRecentMetrics (st : DetectorState) (agentId : String) (count : Nat) :
    List CognitiveMetrics :=
  sliceLast (st.metrics agentId) count

def createDefaultBaseline : DerivedBaseline :=
  ⟨thresholds.latency.baselineMs, 0.40, 0.90⟩

/-- The healthy-record filter of `updateBaseline`. -/
def healthy (m : CognitiveMetrics) : Bool :=
  m.errorRate < 0.05 ∧ m.semanticConsistency > 0.85

/-- `updateBaseline`: no-op below 20 records; otherwise take the last 50 of
    the healthy-filtered history (note the source filters the WHOLE history
    first and slices afterwards) and overwrite the baseline with its
    per-field means only when more than 10 such records exist. -/
def updateBaseline (st : DetectorState) (agentId : String) : DetectorState :=
  let ms := st.metrics agentId
  if ms.length < 20 then st
  else
    let healthyMetrics := sliceLast (ms.filter healthy) 50
    if healthyMetrics.length > 10 then
      { st with
        baselines := fun a =>
          if a = agentId then
            some ⟨avgQ (healthyMetrics.map (·.processingLatency)),
                  avgQ (healthyMetrics.map (·.contextWindowUsage)),
                  avgQ (healthyMetrics.map (·.semanticConsistency))⟩
          else st.baselines a }
    else st

/-- The bounded-history push of `recordMetric`: append, then drop the oldest
    record when the length exceeds 1000. -/
def histUpdate (h : List CognitiveMetrics) (m : CognitiveMetrics) :
    List CognitiveMetrics :=
  let h2 := h ++ [m]
  if h2.length > 1000 then h2.drop 1 else h2

/-- `recordMetric`: bounded push into the agent's history, then recompute the
    derived baseline. -/
def recordMetric (st : DetectorState) (metric : CognitiveMetrics) : DetectorState :=
  updateBaseline
    { st with
      metrics := fun a =>
        if a = metric.agentId then histUpdate (st.metrics metric.agentId) metric
        else st.metrics a }
    metric.agentId

/-- `updateBaseline` as claim C5 words it: the healthy subset OF the most
    recent 50 history records (slice first, filter second). -/
def updateBaselineClaimed (st : DetectorState) (agentId : String) : DetectorState :=
  let ms := st.metrics agentId
  if ms.length < 20 then st
  else
    let healthyMetrics := (sliceLast ms 50).filter healthy
    if healthyMetrics.length > 10 then
      { st with
        baselines := fun a =>
          if a = agentId then
            some ⟨avgQ (healthyMetrics.map (·.processingLatency)),
                  avgQ (healthyMetrics.map (·.contextWindowUsage)),
                  avgQ (healthyMetrics.map (·.semanticConsistency))⟩
          else st.baselines a }
    else st

/-- `recordMetric` with the claimed baseline-recomputation rule. -/
def recordMetricClaimed (st : DetectorState) (metric : CognitiveMetrics) :
    DetectorState :=
  updateBaselineClaimed
    { st with
      metrics := fun a =>
        if a = metric.agentId then histUpdate (st.metrics metric.agentId) metric
        else st.metrics a }
    metric.agentId

/-- `normalizeMetric(value, min, max)`: 0 when the range is degenerate, else
    the value clamped-normalized into [0, 1]. -/
def normalizeMetric (value lo hi : ℚ) : ℚ :=
  if hi = lo then 0 else max 0 (min 1 ((value - lo) / (hi - lo)))

/-- `calculateCognitiveLoad`: weighted sum of four normalized sub-loads over
    the means of the last 10 records; 0 on an empty history. -/
def calculateCognitiveLoad (st : DetectorState) (agentId : String) : ℚ :=
  let recent := getRecentMetrics st agentId 10
  if recent.length = 0 then 0
  else
    let baseline := (st.baselines agentId).getD createDefaultBaseline
    let contextLoad :=
      normalizeMetric (avgQ (recent.map (·.contextWindowUsage))) 0 1
    let latencyLoad :=
      normalizeMetric (avgQ (recent.map (·.processingLatency)))
        baseline.latency (baseline.latency * 3)
    let errorLoad :=
      normalizeMetric (avgQ (recent.map (·.errorRate))) 0 0.20
    let driftLoad :=
      normalizeMetric (1 - avgQ (recent.map (·.semanticConsistency))) 0 0.50
    contextLoad * 0.25 + latencyLoad * 0.25 + errorLoad * 0.30 + driftLoad * 0.20

inductive Severity
  | none
  | warning
  | critical
deriving DecidableEq

/-- One warning/critical check block of `detectOverload`: a critical crossing
    assigns critical unconditionally; a warning crossing assigns warning only
    when severity is still none; factors/recommendations are appended. -/
def runCheck (v warnCut critCut : ℚ) (critFactor critRec warnFactor warnRec : String)
    (acc : Severity × List String × List String) :
    Severity × List String × List String :=
  if v ≥ critCut then
    (Severity.critical, acc.2.1 ++ [critFactor], acc.2.2 ++ [critRec])
  else if v ≥ warnCut then
    ((if acc.1 = Severity.none then Severity.warning else acc.1),
      acc.2.1 ++ [warnFactor], acc.2.2 ++ [warnRec])
  else acc

structure OverloadResult where
  isOverloaded : Bool
  severity : Severity
  factors : List String
  recommendations : List String
deriving DecidableEq

/-- `detectOverload`: means over the last 5 records, then the four checks in
    the fixed order context, latency, error, drift. -/
def detectOverload (st : DetectorState) (agentId : String) : OverloadResult :=
  let recent := getRecentMetrics st agentId 5
  if recent.length = 0 then ⟨false, Severity.none, [], []⟩
  else
    let avgContextWindow := avgQ (recent.map (·.contextWindowUsage))
    let avgLatency := avgQ (recent.map (·.processingLatency))
    let avgErrorRate := avgQ (recent.map (·.errorRate))
    let avgSemanticDrift := 1 - avgQ (recent.map (·.semanticConsistency))
    let baseline := (st.baselines agentId).getD createDefaultBaseline
    let acc1 := runCheck avgContextWindow
      thresholds.contextWindow.warning thresholds.contextWindow.critical
      "Critical context window usage" "Reduce context size or implement chunking"
      "High context window usage" "Consider context optimization"
      (Severity.none, [], [])
    let acc2 := runCheck avgLatency
      (baseline.latency * thresholds.latency.warningMultiplier)
      (baseline.latency * thresholds.latency.criticalMultiplier)
      "Critical processing latency" "Investigate performance bottlenecks"
      "Elevated processing latency" "Monitor system resources"
      acc1
    let acc3 := runCheck avgErrorRate
      thresholds.errorRate.warning thresholds.errorRate.critical
      "Critical error rate" "Review agent training and protocols"
      "Elevated error rate" "Check recent changes and inputs"
      acc2
    let acc4 := runCheck avgSemanticDrift
      thresholds.semanticDrift.warning thresholds.semanticDrift.critical
      "Critical semantic drift" "Retrain agent or reset context"
      "Significant semantic drift" "Reinforce training protocols"
      acc3
    ⟨decide (acc4.1 ≠ Severity.none), acc4.1, acc4.2.1, acc4.2.2⟩

/-- Severity as a join-semilattice: the monotone-max reading of the spec. -/
def sevMax : Severity → Severity → Severity
  | Severity.critical, _ => Severity.critical
  | _, Severity.critical => Severity.critical
  | Severity.warning, _ => Severity.warning
  | _, Severity.warning => Severity.warning
  | _, _ => Severity.none

/-- The level one threshold check contributes on its own. -/
def checkLevel (v warnCut critCut : ℚ) : Severity :=
  if v ≥ critCut then Severity.critical
  else if v ≥ warnCut then Severity.warning
  else Severity.none

/-- Mean context usage of the detection window (last 5 records). -/
def avgContext5 (st : DetectorState) (agentId : String) : ℚ :=
  avgQ ((getRecentMetrics st agentId 5).map (·.contextWindowUsage))

def avgLatency5 (st : DetectorState) (agentId : String) : ℚ :=
  avgQ ((getRecentMetrics st agentId 5).map (·.processingLatency))

def avgError5 (st : DetectorState) (agentId : String) : ℚ :=
  avgQ ((getRecentMetrics st agentId 5).map (·.errorRate))

def avgDrift5 (st : DetectorState) (agentId : String) : ℚ :=
  1 - avgQ ((getRecentMetrics st agentId 5).map (·.semanticConsistency))

/-- The latency baseline actually consulted: the stored derived baseline, or
    the default one when none has been stored yet. -/
def usedBaseline (st : DetectorState) (agentId : String) : DerivedBaseline :=
  (st.baselines agentId).getD createDefaultBaseline

/-- Fixture for C1: five identical records whose context usage crosses the
    critical cutoff while latency only crosses the warning cutoff of the
    default baseline. -/
def c1rec : CognitiveMetrics := ⟨"a", 0, 0.95, 1600, 0, 1, 0⟩

def c1state : DetectorState :=
  ⟨fun a => if a = "a" then [c1rec, c1rec, c1rec, c1rec, c1rec] else [],
   fun _ => Option.none⟩

/-- Input records for the 1001-record concrete scenario of C3. -/
def c3rec (i : Nat) : CognitiveMetrics := ⟨"a", (i : ℚ), 0, 0, 0, 1, 0⟩

def c3history : List CognitiveMetrics := (List.range 1001).map c3rec

/-- Fixture for C5: the first 20 records are healthy (low error, high
    consistency, latency 100); the remaining ones are unhealthy. -/
def c5rec (i : Nat) : CognitiveMetrics :=
  if i < 20 then ⟨"a", (i : ℚ), 0, 100, 0, 1, 0⟩
  else ⟨"a", (i : ℚ), 1, 9999, 1/2, 1/2, 0⟩

def c5pre : DetectorState :=
  ⟨fun a => if a = "a" then (List.range 59).map c5rec else [], fun _ => Option.none⟩

def c5new : CognitiveMetrics := c5rec 59

/-- Fixture for C10: a warning-only condition (context usage 0.80). -/
def c10rec : CognitiveMetrics := ⟨"a", 0, 0.80, 100, 0, 1, 0⟩

def c10state : DetectorState :=
  ⟨fun a => if a = "a" then [c10rec, c10rec, c10rec, c10rec, c10rec] else [],
   fun _ => Option.none⟩

end Overload

namespace Experiment

open Overload (CognitiveMetrics)

/-- Per-processed-sample environment: the `Math.random()`-synthesized context
    usage and error rate and the `Date.now()`-measured latency of one loop
    iteration of `runExperiment`. -/
structure SampleEnv where
  contextUsage : ℚ
  errorRate : ℚ
  latency : ℚ

/-- `list.reduce((sum, m) => sum + field, 0) / list.length` exactly as JS
    computes it: `none` models the NaN produced by 0/0 on an empty list. -/
def jsMean (l : List ℚ) : Option ℚ :=
  if l.length = 0 then none else some (l.sum / (l.length : ℚ))

inductive Specialization
  | expert
  | generalist
  | hybrid
deriving DecidableEq

inductive ContextWindowSize
  | minimal
  | standard
  | extended
deriving DecidableEq

inductive MemoryStrategy
  | ephemeral
  | persistent
  | hybrid
deriving DecidableEq

structure AgentConfiguration where
  id : String
  name : String
  database : Bool
  specialization : Specialization
  contextWindow : ContextWindowSize
  memoryStrategy : MemoryStrategy

/-- `calculateCognitiveLoadForConfig` on the three metric fields it reads. -/
def calculateCognitiveLoadForConfig (config : AgentConfiguration)
    (contextWindowUsage errorRate semanticConsistency : ℚ) : ℚ :=
  let load := contextWindowUsage * 0.25
  let load := if config.database then load - 0.10 else load
  let load := match config.specialization with
    | Specialization.expert => load - 0.15
    | Specialization.generalist => load + 0.10
    | Specialization.hybrid => load
  let load := match config.memoryStrategy with
    | MemoryStrategy.persistent => load - 0.05
    | MemoryStrategy.ephemeral => load + 0.05
    | MemoryStrategy.hybrid => load
  let load := load + (1 - semanticConsistency) * 0.30 + errorRate * 2
  max 0 (min 1 load)

/-- The samples the `runExperiment` while-loop actually processes: it starts
    at sample index 10 and stops when samples run out or when the wall-clock
    duration check fails; `steps` abstracts how many iterations the duration
    admits.  With at most 10 samples the loop body cannot run at all,
    whatever the timing. -/
def processedSamples (samples : List String) (steps : Nat) : List String :=
  (samples.drop 10).take steps

/-- The metric records `runExperiment` pushes for the processed samples:
    drift is measured against the baseline established from the first 10
    samples under this configuration's id, consistency is `1 - drift`, and
    the synthesized/measured quantities come from `env`. -/
def runMetrics (config : AgentConfiguration) (samples : List String) (steps : Nat)
    (env : Nat → SampleEnv) : List CognitiveMetrics :=
  let baseTerms := SemanticDrift.extractTerminology (samples.take 10)
  (List.range (processedSamples samples steps).length).map fun i =>
    let sample := (processedSamples samples steps).getD i ""
    let drift := SemanticDrift.calculateDrift baseTerms
      (SemanticDrift.extractTerminology [sample])
    { agentId := config.id, timestamp := 0,
      contextWindowUsage := (env i).contextUsage,
      processingLatency := (env i).latency,
      errorRate := (env i).errorRate,
      semanticConsistency := 1 - drift,
      cognitiveLoadIndex := calculateCognitiveLoadForConfig config
        (env i).contextUsage (env i).errorRate (1 - drift) }

/-- The three unguarded aggregation sites of the `ExperimentResult` record
    built by `runExperiment`: mean consistency, mean latency, mean error
    rate, each `reduce(...)/metrics.length` with no empty-list guard. -/
def experimentResultMeans (metrics : List CognitiveMetrics) :
    Option ℚ × Option ℚ × Option ℚ :=
  (jsMean (metrics.map (·.semanticConsistency)),
   jsMean (metrics.map (·.processingLatency)),
   jsMean (metrics.map (·.errorRate)))

/-- `calculateDriftVelocity`: mean absolute successive difference, with an
    explicit guard returning 0 below two measurements. -/
def calculateDriftVelocity (measurements : List ℚ) : ℚ :=
  if measurements.length < 2 then 0
  else ((measurements.zip measurements.tail).map (fun p => |p.2 - p.1|)).sum /
    ((measurements.length : ℚ) - 1)

/-- The aggregated metrics block of an `ExperimentResult`. -/
structure ExperimentMetrics where
  semanticConsistency : ℚ
  cognitiveLoad : ℚ
  processingLatency : ℚ
  errorRate : ℚ
  driftVelocity : ℚ
deriving DecidableEq

/-- `calculateScore`: the fixed configuration-comparison formula. -/
def calculateScore (result : ExperimentMetrics) : ℚ :=
  result.semanticConsistency * 40 + (1 - result.cognitiveLoad) * 30 +
    (1 - result.errorRate * 10) * 20 + (1000 / result.processingLatency) * 10

/-- The `determineWinner` loop state: `best = none` is the `-Infinity`
    start, and only a strictly greater score replaces the current winner. -/
def winnerAux : Option ℚ → String → List (String × ExperimentMetrics) → String
  | _, w, [] => w
  | best, w, p :: rest =>
      let s := calculateScore p.2
      match best with
      | Option.none => winnerAux (some s) p.1 rest
      | some b => if s > b then winnerAux (some s) p.1 rest else winnerAux (some b) w rest

/-- `determineWinner` over the result map in insertion order. -/
def determineWinner (results : List (String × ExperimentMetrics)) : String :=
  winnerAux Option.none "" results

/-- The winner as the specification words it: the first-inserted
    configuration whose score no later configuration strictly exceeds. -/
def leftmostArgmax : List (String × ExperimentMetrics) → String
  | [] => ""
  | p :: rest =>
      if ∀ q ∈ rest, calculateScore q.2 ≤ calculateScore p.2 then p.1
      else leftmostArgmax rest

/-- Reasoning helper: the eventual winner among `l` given current best score
    `b`, none when nothing beats `b`. -/
def argmaxGt (b : ℚ) : List (String × ExperimentMetrics) → Option String
  | [] => Option.none
  | p :: rest =>
      if calculateScore p.2 > b then
        some ((argmaxGt (calculateScore p.2) rest).getD p.1)
      else argmaxGt b rest

/-- Fixture for C6: a configuration handed fewer than 11 samples, so the
    processing loop never runs. -/
def c6config : AgentConfiguration :=
  ⟨"baseline-config", "Baseline", false, Specialization.hybrid,
   ContextWindowSize.standard, MemoryStrategy.hybrid⟩

def c6env : Nat → SampleEnv := fun _ => ⟨1/2, 1/100, 120⟩

def c6samples : List String :=
  ["the api uses the database schema", "database schema design matters",
   "the api schema is consistent"]

/-- Fixture for C8: two configurations with identical scores (a tie). -/
def c8m1 : ExperimentMetrics := ⟨0.9, 0.3, 100, 0.01, 0⟩

def c8results : List (String × ExperimentMetrics) :=
  [("config-a", c8m1), ("config-b", c8m1)]

end Experiment

namespace Sched

/-- The ids of the static `EXPERIMENT_CATALOG`; the other design fields
    (name, hypothesis, methodology, durations, ...) never influence queue
    order and are omitted from the embedding. -/
def EXPERIMENT_CATALOG_IDS : List String :=
  ["exp-001-database-impact",
   "exp-002-specialization-efficiency",
   "exp-003-context-window-optimization",
   "exp-004-training-protocol-effectiveness",
   "exp-005-memory-strategy-impact",
   "exp-006-cognitive-load-distribution",
   "exp-007-error-recovery-patterns",
   "exp-008-vocabulary-diversity-impact",
   "exp-009-cascade-failure-prevention",
   "exp-010-temporal-consistency"]

inductive SchedPriority
  | high
  | normal
  | low
deriving DecidableEq

/-- `scheduleExperiment`: catalog lookup (unknown ids throw), then front
    insert for high, back append for low, and `splice(floor(len/2), 0, e)`
    for normal. -/
def scheduleExperiment (queue : List String) (experimentId : String)
    (priority : SchedPriority) : Except String (List String) :=
  if EXPERIMENT_CATALOG_IDS.contains experimentId then
    Except.ok
      (match priority with
       | SchedPriority.high => experimentId :: queue
       | SchedPriority.low => queue ++ [experimentId]
       | SchedPriority.normal =>
           queue.take (queue.length / 2) ++ experimentId :: queue.drop (queue.length / 2))
  else Except.error (experimentId ++ " not found in catalog")

/-- `runNextExperiment`: `queue.shift()` — pops the front entry (none when
    the queue is empty) and leaves the rest queued. -/
def runNextExperiment (queue : List String) : Option String × List String :=
  match queue with
  | [] => (Option.none, [])
  | e :: rest => (some e, rest)

end Sched

namespace SemanticDrift

theorem bumpTerm_pos {m : List (String × Nat)} (hm : ∀ p ∈ m, 0 < p.2) (w : String) :
    ∀ p ∈ bumpTerm m w, 0 < p.2 := by
  induction m with
  | nil =>
      intro p hp
      simp only [bumpTerm, List.mem_singleton] at hp
      simp [hp]
  | cons q rest ih =>
      intro p hp
      by_cases hq : q.1 = w
      · obtain ⟨t, n⟩ := q
        simp only [bumpTerm, if_pos hq, List.mem_cons] at hp
        rcases hp with hp | hp
        · simp [hp]
        · exact hm p (List.mem_cons_of_mem _ hp)
      · obtain ⟨t, n⟩ := q
        simp only [bumpTerm, if_neg hq, List.mem_cons] at hp
        rcases hp with hp | hp
        · subst hp; exact hm _ (List.mem_cons_self _ _)
        · exact ih (fun r hr => hm r (List.mem_cons_of_mem _ hr)) p hp

theorem foldl_bumpTerm_pos (ws : List String) :
    ∀ m : List (String × Nat), (∀ p ∈ m, 0 < p.2) →
      ∀ p ∈ ws.foldl bumpTerm m, 0 < p.2 := by
  induction ws with
  | nil => intro m hm; simpa using hm
  | cons w ws ih =>
      intro m hm
      simpa using ih (bumpTerm m w) (bumpTerm_pos hm w)

theorem extractTerminology_pos (samples : List String) :
    ∀ p ∈ extractTerminology samples, 0 < p.2 := by
  unfold extractTerminology
  have main : ∀ (ss : List String) (m : List (String × Nat)), (∀ p ∈ m, 0 < p.2) →
      ∀ p ∈ ss.foldl (fun m s => ((splitWords s).filter isTechnicalTerm).foldl bumpTerm m) m,
        0 < p.2 := by
    intro ss
    induction ss with
    | nil => intro m hm; simpa using hm
    | cons s ss ih =>
        intro m hm
        simpa using ih _ (foldl_bumpTerm_pos _ m hm)
  exact main samples [] (by simp)

theorem freq_pos_of_mem_keys {m : List (String × Nat)} (hm : ∀ p ∈ m, 0 < p.2)
    {t : String} (ht : t ∈ m.map Prod.fst) : 0 < freq m t := by
  induction m with
  | nil => simp at ht
  | cons q rest ih =>
      by_cases hq : q.1 = t
      · have : 0 < q.2 := hm q (List.mem_cons_self _ _)
        simp [freq, List.find?_cons, hq, this]
      · simp only [List.map_cons, List.mem_cons] at ht
        rcases ht with ht | ht
        · exact absurd ht.symm hq
        · have := ih (fun r hr => hm r (List.mem_cons_of_mem _ hr)) ht
          simpa [freq, List.find?_cons, hq] using this

theorem foldl_sums (b c : List (String × Nat)) :
    ∀ (ts : List String) (acc : Nat × Nat),
      (∀ t ∈ ts, 0 < freq b t ∨ 0 < freq c t) →
      ts.foldl
        (fun (acc : Nat × Nat) t =>
          let baselineFreq := freq b t
          let currentFreq := freq c t
          if 0 < baselineFreq ∨ 0 < currentFreq then
            (acc.1 + min baselineFreq currentFreq, acc.2 + max baselineFreq currentFreq)
          else acc)
        acc
        = (acc.1 + (ts.map (fun t => min (freq b t) (freq c t))).sum,
           acc.2 + (ts.map (fun t => max (freq b t) (freq c t))).sum) := by
  intro ts
  induction ts with
  | nil => intro acc _; simp
  | cons t ts ih =>
      intro acc h
      have h1 := h t (by simp)
      rw [List.foldl_cons, ih _ (fun x hx => h x (by simp [hx]))]
      simp [h1, Nat.add_assoc]

theorem calculateDrift_eq_driftSpec (b c : List (String × Nat))
    (hb : ∀ p ∈ b, 0 < p.2) (hc : ∀ p ∈ c, 0 < p.2) :
    calculateDrift b c = driftSpec b c := by
  simp only [calculateDrift, driftSpec, termUnion]
  have hpos : ∀ t ∈ (b.map Prod.fst ++ c.map Prod.fst).dedup,
      0 < freq b t ∨ 0 < freq c t := by
    intro t ht
    rw [List.mem_dedup, List.mem_append] at ht
    rcases ht with ht | ht
    · exact Or.inl (freq_pos_of_mem_keys hb ht)
    · exact Or.inr (freq_pos_of_mem_keys hc ht)
  rw [foldl_sums b c _ (0, 0) hpos]
  cases hue : (b.map Prod.fst ++ c.map Prod.fst).dedup with
  | nil => simp
  | cons t ts =>
      have hmem : t ∈ (b.map Prod.fst ++ c.map Prod.fst).dedup := by simp [hue]
      have hmax : 1 ≤ max (freq b t) (freq c t) := by
        rcases hpos t hmem with hp | hp
        · exact le_trans hp (Nat.le_max_left _ _)
        · exact le_trans hp (Nat.le_max_right _ _)
      have hsum : 0 <
          (((t :: ts).map (fun t => max (freq b t) (freq c t))).sum : Nat) := by
        have : max (freq b t) (freq c t) ≤
            ((t :: ts).map (fun t => max (freq b t) (freq c t))).sum :=
          List.single_le_sum (by simp) _ (by simp)
        omega
      have hcond : 0 < ((0, 0).1 + (List.map (fun t => freq b t ⊓ freq c t) (t :: ts)).sum,
          (0, 0).2 + (List.map (fun t => freq b t ⊔ freq c t) (t :: ts)).sum).2 := by
        simpa using hsum
      rw [if_pos hcond, if_neg (List.cons_ne_nil t ts)]
      simp

/-- Claim C2: with a baseline in place, `measureDrift` returns exactly the
    specification's formula — one minus the ratio of the min-frequency sum to
    the max-frequency sum over the union of recognized technical terms of
    baseline and sample, with 0 when that union is empty — and on the
    concrete scenario (baseline from the two api/database/schema samples,
    measured sample "the api schema is consistent") it returns 1 - 2/5 = 0.6. -/
theorem claim_C2 :
    (∀ (st : DriftState) (agentId : String) (samples : List String) (sample : String),
        (measureDrift (establishBaseline st agentId samples) agentId sample).1 =
          driftSpec (extractTerminology samples) (extractTerminology [sample])) ∧
      (measureDrift (establishBaseline initState "agent-1"
          ["the api uses the database schema", "database schema design matters"])
          "agent-1" "the api schema is consistent").1 = 3 / 5 := by
  constructor
  · intro st a samples s
    simp [measureDrift, establishBaseline]
    exact calculateDrift_eq_driftSpec _ _ (extractTerminology_pos samples)
      (extractTerminology_pos [s])
  · with_unfolding_all decide

/-- Claim C7 counterexample: the source `establishBaseline` performs no
    validation at all — on an empty sample list it does not fail with
    InvalidArgument (as the claim demands) but succeeds, storing an empty
    terminology profile, and subsequent measurement proceeds normally. -/
theorem claim_C7_counterexample :
    establishBaselineClaimed initState "agent-1" [] =
      Except.error "InvalidArgument" ∧
    (establishBaseline initState "agent-1" []).baseline "agent-1" =
      some ⟨[], 0⟩ ∧
    (measureDrift (establishBaseline initState "agent-1" []) "agent-1"
      "hello world").1 = 0 := by
  refine ⟨rfl, ?_, ?_⟩
  · with_unfolding_all decide
  · with_unfolding_all decide

/-- Claim C7 amended: `establishBaseline` never fails; for every sample list,
    the empty one included, it stores the extracted TerminologyProfile as the
    agent's baseline, discarding any prior baseline. -/
theorem claim_C7 :
    ∀ (st : DriftState) (agentId : String) (samples prior : List String),
      (establishBaseline st agentId samples).baseline agentId =
        some ⟨extractTerminology samples, samples.length⟩ ∧
      (establishBaseline (establishBaseline st agentId prior) agentId
          samples).baseline agentId =
        some ⟨extractTerminology samples, samples.length⟩ := by
  intro st a samples prior
  constructor <;> simp [establishBaseline]

end SemanticDrift

namespace Overload

theorem runCheck_severity (v warnCut critCut : ℚ) (cf cr wf wr : String)
    (acc : Severity × List String × List String) :
    (runCheck v warnCut critCut cf cr wf wr acc).1 =
      sevMax acc.1 (checkLevel v warnCut critCut) := by
  unfold runCheck checkLevel
  by_cases h1 : v ≥ critCut
  · simp only [if_pos h1]
    cases acc.1 <;> rfl
  · by_cases h2 : v ≥ warnCut
    · simp only [if_neg h1, if_pos h2]
      cases acc.1 <;> rfl
    · simp only [if_neg h1, if_neg h2]
      cases acc.1 <;> rfl

theorem sevMax_none_left (s : Severity) : sevMax Severity.none s = s := by
  cases s <;> rfl

theorem drop_index_congr {α : Type} (l : List α) {i j : Nat} (hij : i = j) :
    l.drop i = l.drop j := by rw [hij]

theorem updateBaseline_metrics (st : DetectorState) (agentId a : String) :
    (updateBaseline st agentId).metrics a = st.metrics a := by
  simp only [updateBaseline]
  split_ifs <;> rfl

theorem histUpdate_eq (h : List CognitiveMetrics) (m : CognitiveMetrics)
    (hle : h.length ≤ 1000) :
    histUpdate h m = (h ++ [m]).drop (h.length + 1 - 1000) := by
  simp only [histUpdate]
  split_ifs with hc
  · apply drop_index_congr
    simp only [List.length_append, List.length_singleton] at hc
    omega
  · simp only [List.length_append, List.length_singleton] at hc
    have h0 : h.length + 1 - 1000 = 0 := by omega
    rw [h0, List.drop_zero]

theorem histUpdate_len_le (h : List CognitiveMetrics) (m : CognitiveMetrics)
    (hle : h.length ≤ 1000) : (histUpdate h m).length ≤ 1000 := by
  rw [histUpdate_eq h m hle]
  simp only [List.length_drop, List.length_append, List.length_singleton]
  omega

theorem foldl_histUpdate (ms : List CognitiveMetrics) :
    ∀ h : List CognitiveMetrics, h.length ≤ 1000 →
      ms.foldl histUpdate h = (h ++ ms).drop (h.length + ms.length - 1000) := by
  induction ms with
  | nil =>
      intro h hle
      simp only [List.foldl_nil, List.append_nil, List.length_nil]
      have h0 : h.length + 0 - 1000 = 0 := by omega
      rw [h0, List.drop_zero]
  | cons m ms ih =>
      intro h hle
      rw [List.foldl_cons, ih (histUpdate h m) (histUpdate_len_le h m hle),
        histUpdate_eq h m hle]
      have hd : h.length + 1 - 1000 ≤ (h ++ [m]).length := by
        simp only [List.length_append, List.length_singleton]; omega
      rw [← List.drop_append_of_le_length hd, List.drop_drop,
        List.append_assoc, List.singleton_append]
      apply drop_index_congr
      simp
      omega

theorem recordMetric_metrics (st : DetectorState) (m : CognitiveMetrics) (a : String) :
    (recordMetric st m).metrics a =
      if m.agentId = a then histUpdate (st.metrics a) m else st.metrics a := by
  unfold recordMetric
  rw [updateBaseline_metrics]
  by_cases h : m.agentId = a
  · subst h; simp
  · simp [h, Ne.symm h]

theorem foldl_recordMetric_metrics (ms : List CognitiveMetrics) :
    ∀ (st : DetectorState) (a : String),
      (ms.foldl recordMetric st).metrics a =
        (ms.filter (fun m => decide (m.agentId = a))).foldl histUpdate
          (st.metrics a) := by
  induction ms with
  | nil => intro st a; rfl
  | cons m ms ih =>
      intro st a
      rw [List.foldl_cons, ih]
      by_cases h : m.agentId = a
      · rw [List.filter_cons_of_pos (by simpa using h), List.foldl_cons,
          recordMetric_metrics, if_pos h]
      · rw [List.filter_cons_of_neg (by simpa using h),
          recordMetric_metrics, if_neg h]

/-- The history an arbitrary interleaved recording sequence leaves for one
    agent: the agent's own records, truncated FIFO to the last 1000. -/
theorem foldl_recordMetric_window (ms : List CognitiveMetrics) (a : String) :
    (ms.foldl recordMetric initState).metrics a =
      (ms.filter (fun m => decide (m.agentId = a))).drop
        ((ms.filter (fun m => decide (m.agentId = a))).length - 1000) := by
  rw [foldl_recordMetric_metrics]
  have h0 : (initState.metrics a).length ≤ 1000 := by simp [initState]
  rw [foldl_histUpdate _ _ h0]
  simp [initState]

theorem updateBaseline_baselines (st : DetectorState) (agentId : String) :
    (updateBaseline st agentId).baselines agentId =
      (if 20 ≤ (st.metrics agentId).length ∧
          10 < (sliceLast ((st.metrics agentId).filter healthy) 50).length then
        some ⟨avgQ ((sliceLast ((st.metrics agentId).filter healthy) 50).map
                (·.processingLatency)),
              avgQ ((sliceLast ((st.metrics agentId).filter healthy) 50).map
                (·.contextWindowUsage)),
              avgQ ((sliceLast ((st.metrics agentId).filter healthy) 50).map
                (·.semanticConsistency))⟩
      else st.baselines agentId) := by
  simp only [updateBaseline]
  split_ifs <;> first | rfl | (exfalso; omega) | simp

theorem normalizeMetric_bounds (v lo hi : ℚ) :
    0 ≤ normalizeMetric v lo hi ∧ normalizeMetric v lo hi ≤ 1 := by
  unfold normalizeMetric
  split_ifs
  · constructor <;> norm_num
  · constructor
    · exact le_max_left 0 _
    · exact max_le (by norm_num) (min_le_left 1 _)

theorem weighted_bounds {c l e d : ℚ} (hc : 0 ≤ c ∧ c ≤ 1) (hl : 0 ≤ l ∧ l ≤ 1)
    (he : 0 ≤ e ∧ e ≤ 1) (hd : 0 ≤ d ∧ d ≤ 1) :
    0 ≤ c * 0.25 + l * 0.25 + e * 0.30 + d * 0.20 ∧
      c * 0.25 + l * 0.25 + e * 0.30 + d * 0.20 ≤ 1 := by
  obtain ⟨hc0, hc1⟩ := hc
  obtain ⟨hl0, hl1⟩ := hl
  obtain ⟨he0, he1⟩ := he
  obtain ⟨hd0, hd1⟩ := hd
  constructor <;> nlinarith

/-- Claim C1 counterexample: on a history whose context check crosses its
    critical cutoff (mean usage 0.95 ≥ 0.90) while the later latency check
    reaches only its warning cutoff (mean 1600 ∈ [1500, 2000) against the
    default 1000 ms baseline), `detectOverload` still reports critical — the
    later warning-level check does NOT reset severity to warning, because the
    source guards every warning assignment with `severity === 'none'`. -/
theorem claim_C1_counterexample :
    (detectOverload c1state "a").severity = Severity.critical ∧
    (detectOverload c1state "a").severity ≠ Severity.warning ∧
    (detectOverload c1state "a").factors =
      ["Critical context window usage", "Elevated processing latency"] := by
  with_unfolding_all decide

/-- Claim C1 amended: severity is effectively monotonically maxed — critical
    branches assign critical unconditionally and warning branches assign only
    when severity is still none, so on any non-empty detection window the
    returned severity equals the maximum of the four checks' individual
    levels and an earlier critical result is never downgraded. -/
theorem claim_C1 :
    ∀ (st : DetectorState) (a : String), getRecentMetrics st a 5 ≠ [] →
      (detectOverload st a).severity =
        sevMax (sevMax (sevMax
          (checkLevel (avgContext5 st a)
            thresholds.contextWindow.warning thresholds.contextWindow.critical)
          (checkLevel (avgLatency5 st a)
            ((usedBaseline st a).latency * thresholds.latency.warningMultiplier)
            ((usedBaseline st a).latency * thresholds.latency.criticalMultiplier)))
          (checkLevel (avgError5 st a)
            thresholds.errorRate.warning thresholds.errorRate.critical))
          (checkLevel (avgDrift5 st a)
            thresholds.semanticDrift.warning thresholds.semanticDrift.critical) := by
  intro st a h
  have hlen : ¬ (getRecentMetrics st a 5).length = 0 := by
    simpa [List.length_eq_zero] using h
  simp only [detectOverload, if_neg hlen]
  simp only [runCheck_severity, sevMax_none_left]
  simp only [avgContext5, avgLatency5, avgError5, avgDrift5, usedBaseline]

/-- Witness for the amended C1 theorem at the concrete C1 fixture state. -/
theorem claim_C1_witness :
    getRecentMetrics c1state "a" 5 ≠ [] ∧
      (detectOverload c1state "a").severity =
        sevMax (sevMax (sevMax
          (checkLevel (avgContext5 c1state "a")
            thresholds.contextWindow.warning thresholds.contextWindow.critical)
          (checkLevel (avgLatency5 c1state "a")
            ((usedBaseline c1state "a").latency * thresholds.latency.warningMultiplier)
            ((usedBaseline c1state "a").latency * thresholds.latency.criticalMultiplier)))
          (checkLevel (avgError5 c1state "a")
            thresholds.errorRate.warning thresholds.errorRate.critical))
          (checkLevel (avgDrift5 c1state "a")
            thresholds.semanticDrift.warning thresholds.semanticDrift.critical) :=
  ⟨by with_unfolding_all decide, claim_C1 c1state "a" (by with_unfolding_all decide)⟩

/-- Claim C3: after any sequence of `recordMetric` calls the per-agent metric
    history never exceeds 1000 records and holds exactly the agent's most
    recent records in order (FIFO eviction); in particular, recording 1001
    metrics for one agent leaves exactly the last 1000, dropping only the
    single oldest. -/
theorem claim_C3 :
    (∀ (ms : List CognitiveMetrics) (a : String),
        ((ms.foldl recordMetric initState).metrics a).length ≤ 1000 ∧
        (ms.foldl recordMetric initState).metrics a =
          (ms.filter (fun m => decide (m.agentId = a))).drop
            ((ms.filter (fun m => decide (m.agentId = a))).length - 1000)) ∧
      ((c3history.foldl recordMetric initState).metrics "a" = c3history.drop 1 ∧
        ((c3history.foldl recordMetric initState).metrics "a").length = 1000) := by
  constructor
  · intro ms a
    refine ⟨?_, foldl_recordMetric_window ms a⟩
    rw [foldl_recordMetric_window ms a]
    simp only [List.length_drop]
    omega
  · have hfil : c3history.filter (fun m => decide (m.agentId = "a")) = c3history := by
      rw [List.filter_eq_self]
      intro m hm
      simp only [c3history, List.mem_map] at hm
      obtain ⟨i, _, rfl⟩ := hm
      simp [c3rec]
    have hlen : c3history.length = 1001 := by simp [c3history]
    have h1 : (c3history.foldl recordMetric initState).metrics "a" =
        c3history.drop 1 := by
      rw [foldl_recordMetric_window, hfil, hlen]
    refine ⟨h1, ?_⟩
    rw [h1]
    simp [hlen]

/-- Claim C4: `calculateCognitiveLoad` always lies in [0, 1] — it is the
    weighted sum 0.25/0.25/0.30/0.20 of four sub-loads each clamped to
    [0, 1] over the means of the last 10 records — and it returns exactly 0
    when the agent's history is empty. -/
theorem claim_C4 :
    ∀ (st : DetectorState) (a : String),
      (0 ≤ calculateCognitiveLoad st a ∧ calculateCognitiveLoad st a ≤ 1) ∧
        (st.metrics a = [] → calculateCognitiveLoad st a = 0) := by
  intro st a
  constructor
  · by_cases h : (getRecentMetrics st a 10).length = 0
    · simp [calculateCognitiveLoad, h]
    · simp only [calculateCognitiveLoad, if_neg h]
      exact weighted_bounds (normalizeMetric_bounds _ _ _)
        (normalizeMetric_bounds _ _ _) (normalizeMetric_bounds _ _ _)
        (normalizeMetric_bounds _ _ _)
  · intro hemp
    simp [calculateCognitiveLoad, getRecentMetrics, sliceLast, hemp]

/-- Witness for C4 at the empty initial state: the bounds hold and the load
    is exactly 0. -/
theorem claim_C4_witness :
    (0 ≤ calculateCognitiveLoad initState "a" ∧
      calculateCognitiveLoad initState "a" ≤ 1) ∧
    calculateCognitiveLoad initState "a" = 0 :=
  ⟨(claim_C4 initState "a").1, (claim_C4 initState "a").2 rfl⟩

/-- Claim C5 counterexample: the source computes
    `filter(healthy).slice(-50)` — the last 50 of ALL healthy records — not
    the healthy subset of the last 50 records as the claim states.  On a
    60-record history whose first 20 records are healthy, one `recordMetric`
    overwrites the baseline with the means of those 20 old records (latency
    100), while the claimed slice-then-filter rule finds only 10 healthy
    records in the recent-50 window and would leave the baseline unset. -/
theorem claim_C5_counterexample :
    (recordMetric c5pre c5new).baselines "a" = some ⟨100, 0, 1⟩ ∧
    (recordMetricClaimed c5pre c5new).baselines "a" = Option.none := by
  with_unfolding_all decide

/-- Claim C5 amended: after `recordMetric`, when the post-insertion history
    holds at least 20 records, the DerivedBaseline is recomputed as the
    per-field means over the most recent 50 members of the healthy subset
    (errorRate < 0.05 and semanticConsistency > 0.85) of the WHOLE retained
    history, and overwritten only when that truncated subset has more than 10
    members; otherwise the stored baseline (hence the default
    {1000ms, 0.40, 0.90} for agents without one) remains in effect. -/
theorem claim_C5 :
    ∀ (st : DetectorState) (metric : CognitiveMetrics),
      (recordMetric st metric).baselines metric.agentId =
        (if 20 ≤ (histUpdate (st.metrics metric.agentId) metric).length ∧
            10 < (sliceLast ((histUpdate (st.metrics metric.agentId) metric).filter
              healthy) 50).length then
          some ⟨avgQ ((sliceLast ((histUpdate (st.metrics metric.agentId) metric).filter
                  healthy) 50).map (·.processingLatency)),
                avgQ ((sliceLast ((histUpdate (st.metrics metric.agentId) metric).filter
                  healthy) 50).map (·.contextWindowUsage)),
                avgQ ((sliceLast ((histUpdate (st.metrics metric.agentId) metric).filter
                  healthy) 50).map (·.semanticConsistency))⟩
        else st.baselines metric.agentId) := by
  intro st m
  have h := updateBaseline_baselines
    { st with metrics := fun a =>
        if a = m.agentId then histUpdate (st.metrics m.agentId) m else st.metrics a }
    m.agentId
  simp only [recordMetric]
  rw [h]
  simp

/-- Claim C10: `detectOverload` always reports
    isOverloaded = (severity not none) — a warning-only condition still sets
    isOverloaded — and an agent with no recorded metrics gets
    {false, none, [], []}. -/
theorem claim_C10 :
    (∀ (st : DetectorState) (a : String),
        (detectOverload st a).isOverloaded =
          decide ((detectOverload st a).severity ≠ Severity.none)) ∧
    (∀ a : String, detectOverload initState a = ⟨false, Severity.none, [], []⟩) ∧
    ((detectOverload c10state "a").severity = Severity.warning ∧
      (detectOverload c10state "a").isOverloaded = true) := by
  refine ⟨?_, fun _ => rfl, ?_⟩
  · intro st a
    by_cases h : (getRecentMetrics st a 5).length = 0
    · simp [detectOverload, h]
    · simp [detectOverload, h]
  · with_unfolding_all decide

end Overload

namespace Experiment

theorem winnerAux_eq (l : List (String × ExperimentMetrics)) :
    ∀ (b : ℚ) (w : String), winnerAux (some b) w l = (argmaxGt b l).getD w := by
  induction l with
  | nil => intro b w; rfl
  | cons p rest ih =>
      intro b w
      simp only [winnerAux, argmaxGt]
      by_cases h : calculateScore p.2 > b
      · rw [if_pos h, if_pos h, ih]
        simp
      · rw [if_neg h, if_neg h, ih]

theorem argmaxGt_none (l : List (String × ExperimentMetrics)) :
    ∀ b : ℚ, (∀ q ∈ l, calculateScore q.2 ≤ b) → argmaxGt b l = Option.none := by
  induction l with
  | nil => intro b _; rfl
  | cons p rest ih =>
      intro b hall
      have hp : ¬ calculateScore p.2 > b := not_lt.mpr (hall p (by simp))
      simp only [argmaxGt, if_neg hp]
      exact ih b (fun q hq => hall q (by simp [hq]))

theorem argmaxGt_some (l : List (String × ExperimentMetrics)) :
    ∀ b : ℚ, (∃ q ∈ l, b < calculateScore q.2) →
      argmaxGt b l = some (leftmostArgmax l) := by
  induction l with
  | nil => intro b hex; simp at hex
  | cons p rest ih =>
      intro b hex
      by_cases h : calculateScore p.2 > b
      · simp only [argmaxGt, if_pos h]
        by_cases hall : ∀ q ∈ rest, calculateScore q.2 ≤ calculateScore p.2
        · rw [argmaxGt_none rest _ hall]
          simp only [leftmostArgmax, if_pos hall, Option.getD_none]
        · push_neg at hall
          obtain ⟨q, hq, hgt⟩ := hall
          rw [ih _ ⟨q, hq, hgt⟩]
          have hnall : ¬ ∀ r ∈ rest, calculateScore r.2 ≤ calculateScore p.2 := by
            push_neg; exact ⟨q, hq, hgt⟩
          simp only [leftmostArgmax, if_neg hnall, Option.getD_some]
      · simp only [argmaxGt, if_neg h]
        obtain ⟨q, hq, hgt⟩ := hex
        have hq2 : q ∈ rest := by
          rcases List.mem_cons.mp hq with rfl | hmem
          · exact absurd hgt h
          · exact hmem
        rw [ih _ ⟨q, hq2, hgt⟩]
        have hnall : ¬ ∀ r ∈ rest, calculateScore r.2 ≤ calculateScore p.2 := by
          push_neg
          exact ⟨q, hq2, lt_of_le_of_lt (not_lt.mp h) hgt⟩
        simp only [leftmostArgmax, if_neg hnall]

theorem determineWinner_eq_leftmostArgmax (l : List (String × ExperimentMetrics))
    (h : l ≠ []) : determineWinner l = leftmostArgmax l := by
  cases l with
  | nil => exact absurd rfl h
  | cons p rest =>
      show winnerAux Option.none "" (p :: rest) = _
      simp only [winnerAux]
      rw [winnerAux_eq]
      by_cases hall : ∀ q ∈ rest, calculateScore q.2 ≤ calculateScore p.2
      · rw [argmaxGt_none rest _ hall]
        simp only [leftmostArgmax, if_pos hall, Option.getD_none]
      · push_neg at hall
        obtain ⟨q, hq, hgt⟩ := hall
        rw [argmaxGt_some rest _ ⟨q, hq, hgt⟩]
        have hnall : ¬ ∀ r ∈ rest, calculateScore r.2 ≤ calculateScore p.2 := by
          push_neg; exact ⟨q, hq, hgt⟩
        simp only [leftmostArgmax, if_neg hnall, Option.getD_some]

theorem leftmostArgmax_max (l : List (String × ExperimentMetrics)) (h : l ≠ []) :
    ∃ r, (leftmostArgmax l, r) ∈ l ∧
      ∀ q ∈ l, calculateScore q.2 ≤ calculateScore r := by
  induction l with
  | nil => exact absurd rfl h
  | cons p rest ih =>
      by_cases hall : ∀ q ∈ rest, calculateScore q.2 ≤ calculateScore p.2
      · refine ⟨p.2, ?_, ?_⟩
        · have heq : leftmostArgmax (p :: rest) = p.1 := by
            simp only [leftmostArgmax, if_pos hall]
          rw [heq]
          exact Prod.mk.eta ▸ List.mem_cons_self _ _
        · intro q hq
          rcases List.mem_cons.mp hq with rfl | hmem
          · exact le_refl _
          · exact hall q hmem
      · push_neg at hall
        obtain ⟨q0, hq0, hgt⟩ := hall
        have hne : rest ≠ [] := by
          intro h2; rw [h2] at hq0; simp at hq0
        obtain ⟨r, hrmem, hrmax⟩ := ih hne
        have heq : leftmostArgmax (p :: rest) = leftmostArgmax rest := by
          have hnall : ¬ ∀ x ∈ rest, calculateScore x.2 ≤ calculateScore p.2 := by
            push_neg; exact ⟨q0, hq0, hgt⟩
          simp only [leftmostArgmax, if_neg hnall]
        refine ⟨r, ?_, ?_⟩
        · rw [heq]; exact List.mem_cons_of_mem _ hrmem
        · intro q hq
          rcases List.mem_cons.mp hq with rfl | hmem
          · exact le_of_lt (lt_of_lt_of_le hgt (hrmax q0 hq0))
          · exact hrmax q hmem

/-- Claim C6 (code bug): with 10 or fewer samples the `runExperiment` loop
    processes nothing, and its three unguarded aggregation sites compute
    0/0 — JS NaN, modelled as none — for the mean consistency, latency and
    error rate, instead of the defined default 0 the specification requires;
    only `calculateDriftVelocity` guards its empty case. -/
theorem claim_C6 :
    runMetrics c6config c6samples 5 c6env = [] ∧
    experimentResultMeans (runMetrics c6config c6samples 5 c6env) =
      (Option.none, Option.none, Option.none) ∧
    (Option.none ≠ some (0 : ℚ)) ∧
    calculateDriftVelocity [] = 0 := by
  refine ⟨rfl, rfl, by simp, rfl⟩

/-- Claim C8: `determineWinner` over a non-empty result map returns the
    configuration computed by the leftmost-argmax rule — deterministic
    tie-break in favor of the first-inserted configuration — and its score
    under the fixed formula is greater than or equal to every other
    configuration's score. -/
theorem claim_C8 (results : List (String × ExperimentMetrics)) (h : results ≠ []) :
    determineWinner results = leftmostArgmax results ∧
    ∃ r, (determineWinner results, r) ∈ results ∧
      ∀ q ∈ results, calculateScore q.2 ≤ calculateScore r := by
  refine ⟨determineWinner_eq_leftmostArgmax results h, ?_⟩
  rw [determineWinner_eq_leftmostArgmax results h]
  exact leftmostArgmax_max results h

/-- Witness for C8 on a two-configuration tie: the theorem applies and the
    first-inserted configuration wins. -/
theorem claim_C8_witness :
    c8results ≠ [] ∧
      (determineWinner c8results = leftmostArgmax c8results ∧
        ∃ r, (determineWinner c8results, r) ∈ c8results ∧
          ∀ q ∈ c8results, calculateScore q.2 ≤ calculateScore r) :=
  ⟨by simp [c8results], claim_C8 c8results (by simp [c8results])⟩

end Experiment

namespace Sched

/-- Claim C9: `scheduleExperiment` inserts a high-priority entry at the queue
    front, appends a low-priority entry at the back, and splices a
    normal-priority entry at the current queue's midpoint index; hence a high
    entry scheduled after two normals is executed first by
    `runNextExperiment` (which pops the front), and a low entry scheduled
    after a normal runs after it. -/
theorem claim_C9 :
    (∀ (queue : List String) (e : String),
        EXPERIMENT_CATALOG_IDS.contains e = true →
        scheduleExperiment queue e SchedPriority.high = Except.ok (e :: queue) ∧
        scheduleExperiment queue e SchedPriority.low = Except.ok (queue ++ [e]) ∧
        scheduleExperiment queue e SchedPriority.normal =
          Except.ok (queue.take (queue.length / 2) ++
            e :: queue.drop (queue.length / 2))) ∧
    (scheduleExperiment [] "exp-001-database-impact" SchedPriority.normal =
        Except.ok ["exp-001-database-impact"] ∧
      scheduleExperiment ["exp-001-database-impact"]
          "exp-002-specialization-efficiency" SchedPriority.normal =
        Except.ok ["exp-002-specialization-efficiency", "exp-001-database-impact"] ∧
      scheduleExperiment ["exp-002-specialization-efficiency", "exp-001-database-impact"]
          "exp-003-context-window-optimization" SchedPriority.high =
        Except.ok ["exp-003-context-window-optimization",
          "exp-002-specialization-efficiency", "exp-001-database-impact"] ∧
      runNextExperiment ["exp-003-context-window-optimization",
          "exp-002-specialization-efficiency", "exp-001-database-impact"] =
        (some "exp-003-context-window-optimization",
          ["exp-002-specialization-efficiency", "exp-001-database-impact"])) ∧
    (scheduleExperiment ["exp-001-database-impact"]
          "exp-004-training-protocol-effectiveness" SchedPriority.low =
        Except.ok ["exp-001-database-impact",
          "exp-004-training-protocol-effectiveness"] ∧
      runNextExperiment ["exp-001-database-impact",
          "exp-004-training-protocol-effectiveness"] =
        (some "exp-001-database-impact",
          ["exp-004-training-protocol-effectiveness"])) := by
  refine ⟨?_, ?_, ?_⟩
  · intro q e he
    have hmem : e ∈ EXPERIMENT_CATALOG_IDS := by simpa using he
    refine ⟨?_, ?_, ?_⟩ <;> simp [scheduleExperiment, hmem]
  · refine ⟨?_, ?_, ?_, ?_⟩ <;> rfl
  · exact ⟨rfl, rfl⟩

/-- Witness for the general insertion rules of C9 at a valid catalog id and
    the empty queue. -/
theorem claim_C9_witness :
    EXPERIMENT_CATALOG_IDS.contains "exp-001-database-impact" = true ∧
      (scheduleExperiment [] "exp-001-database-impact" SchedPriority.high =
          Except.ok ["exp-001-database-impact"] ∧
        scheduleExperiment [] "exp-001-database-impact" SchedPriority.low =
          Except.ok ["exp-001-database-impact"] ∧
        scheduleExperiment [] "exp-001-database-impact" SchedPriority.normal =
          Except.ok (([] : List String).take 0 ++
            "exp-001-database-impact" :: ([] : List String).drop 0)) :=
  ⟨by decide, claim_C9.1 [] "exp-001-database-impact" (by decide)⟩

end Sched
